import Mathlib

/-!
# Verification of the go-pskreporter client library

A shallow embedding of the query-option validation, query-string encoding,
and cache policy of the `pskreporter` Go package (client.go), together with
theorems settling the specification claims.

Modelling conventions:
* Go's `url.Values` (a map from string to list of string, where this code
  only ever calls `Set`, storing singleton lists) is modelled as an
  association list `Values := List (String × String)` whose key lists are
  kept duplicate-free by `Set` (mirroring map semantics).
* `url.Values.Encode` sorts the keys and percent-escapes keys and values;
  `Values.Encode` below does the same (insertion sort models `sort.Strings`:
  on duplicate-free key lists every ascending sort agrees).
* External collaborators are parameters, exactly as the spec scopes them out:
  the HTTP transport (the `Doer` interface in the source) becomes
  `FetchEnv.doResult`, the filesystem (`os.Stat`/`os.Open`/`os.Create`)
  becomes `FetchEnv.stat`/`FetchEnv.openFile`/`FetchEnv.createOk`, the XML
  decoder becomes `FetchEnv.decode`, `time.Now()` becomes `FetchEnv.now`,
  the md5 `hash` function is an arbitrary `String → String` parameter
  (every claim about cache keys only needs that it is a function), and
  `url.Parse(baseURL).Query()` becomes the `initVals` parameter.
* A failure of `io.ReadAll` on the response body is folded into the
  transport-failure case of `doResult` (the body is delivered with the
  status, or the exchange fails).
-/

namespace Pskreporter

/-- Go `url.Values` restricted to the operations this package performs:
an association list of (parameter name, value) pairs with map semantics. -/
def Values : Type := List (String × String)

instance : DecidableEq Values := by
  unfold Values
  infer_instance

/-- Membership test `_, ok := vals[key]` on a Go map. -/
def Values.has (v : Values) (k : String) : Bool :=
  List.any v (fun p => p.1 == k)

/-- Lookup `vals[key]` on a Go map (first binding wins; `Set` keeps keys
duplicate-free so there is at most one). -/
def Values.get? (v : Values) (k : String) : Option String :=
  (List.find? (fun p => p.1 == k) v).map (fun p => p.2)

/-- Go `url.Values.Set`: `v[key] = []string{value}` — replace any existing
binding of `k` with the single value `s`. -/
def Values.Set (v : Values) (k s : String) : Values :=
  List.filter (fun p => p.1 != k) v ++ [(k, s)]

/-- The hexadecimal digit characters used by Go's percent-escaping. -/
def upperhexDigit (n : Nat) : Char :=
  List.getD (String.toList "0123456789ABCDEF") n '0'

/-- Escape one byte the way Go's `url.QueryEscape` does: keep unreserved
bytes, turn a space into `+`, percent-escape everything else. -/
def escapeByte (b : UInt8) : List Char :=
  let n := b.toNat
  if (65 ≤ n ∧ n ≤ 90) ∨ (97 ≤ n ∧ n ≤ 122) ∨ (48 ≤ n ∧ n ≤ 57) ∨
      n = 45 ∨ n = 95 ∨ n = 46 ∨ n = 126 then
    [Char.ofNat n]
  else if n = 32 then
    ['+']
  else
    ['%', upperhexDigit (n / 16), upperhexDigit (n % 16)]

/-- Go `url.QueryEscape`, applied byte-wise to the UTF-8 encoding. -/
def queryEscape (s : String) : String :=
  String.mk (List.flatten (List.map escapeByte (ByteArray.toList (String.toUTF8 s))))

/-- Go `url.Values.Encode`: sort the parameter names, then join
`escape(k)=escape(v)` pairs with `&`. -/
def Values.Encode (v : Values) : String :=
  String.intercalate "&"
    (List.map
      (fun k => queryEscape k ++ "=" ++ queryEscape (Option.getD (v.get? k) ""))
      (List.insertionSort (fun a b : String => a ≤ b) (List.map Prod.fst v)))

/-- The named validation errors of the source (`errCallsignExclusive`,
`errFlowStartNotNegative`, `errFlowStartGreaterDay`,
`errLowerFrequencyGreaterThanUpper`). -/
inductive OptionError where
  | errCallsignExclusive
  | errFlowStartNotNegative
  | errFlowStartGreaterDay
  | errLowerFrequencyGreaterThanUpper
deriving DecidableEq

/-- Go `QueryOption = func(*queryOptions) error`, in state-passing form. -/
def QueryOption : Type := Values → Except OptionError Values

/-- `WithSenderCallsign`: exclusive with `receiverCallsign` and `callsign`. -/
def WithSenderCallsign (s : String) : QueryOption := fun v =>
  if v.has "receiverCallsign" then .error .errCallsignExclusive
  else if v.has "callsign" then .error .errCallsignExclusive
  else .ok (v.Set "senderCallsign" s)

/-- `WithReceiverCallsign`: exclusive with `senderCallsign` and `callsign`. -/
def WithReceiverCallsign (s : String) : QueryOption := fun v =>
  if v.has "senderCallsign" then .error .errCallsignExclusive
  else if v.has "callsign" then .error .errCallsignExclusive
  else .ok (v.Set "receiverCallsign" s)

/-- `WithCallsign`: exclusive with `senderCallsign` and `receiverCallsign`. -/
def WithCallsign (s : String) : QueryOption := fun v =>
  if v.has "senderCallsign" then .error .errCallsignExclusive
  else if v.has "receiverCallsign" then .error .errCallsignExclusive
  else .ok (v.Set "callsign" s)

/-- `WithMode`. -/
def WithMode (s : String) : QueryOption := fun v =>
  .ok (v.Set "mode" s)

/-- `WithReportLimit` (`fmt.Sprintf("%d", s)` is decimal rendering). -/
def WithReportLimit (s : Int) : QueryOption := fun v =>
  .ok (v.Set "rptlimit" (toString s))

/-- `WithFlowStartSeconds`: must lie in [−86400, 0]. -/
def WithFlowStartSeconds (s : Int) : QueryOption := fun v =>
  if s > 0 then .error .errFlowStartNotNegative
  else if s < -86400 then .error .errFlowStartGreaterDay
  else .ok (v.Set "flowStartSeconds" (toString s))

/-- `WithNoActive`. -/
def WithNoActive (i : Int) : QueryOption := fun v =>
  .ok (v.Set "noactive" (toString i))

/-- `WithAppContact`. -/
def WithAppContact (email : String) : QueryOption := fun v =>
  .ok (v.Set "appcontact" email)

/-- `WithRROnly`. -/
def WithRROnly (i : Int) : QueryOption := fun v =>
  .ok (v.Set "rronly" (toString i))

/-- `WithFrequencyRange`: requires lower ≤ upper, sets `frange` to
`"lower-upper"`. -/
def WithFrequencyRange (lower upper : Int) : QueryOption := fun v =>
  if lower > upper then .error .errLowerFrequencyGreaterThanUpper
  else .ok (v.Set "frange" (toString lower ++ "-" ++ toString upper))

/-- `WithNoLocator`. -/
def WithNoLocator (i : Int) : QueryOption := fun v =>
  .ok (v.Set "nolocator" (toString i))

/-- `WithStatistics`. -/
def WithStatistics (i : Int) : QueryOption := fun v =>
  .ok (v.Set "statistics" (toString i))

/-- `WithLastSequenceNumber`. -/
def WithLastSequenceNumber (s : String) : QueryOption := fun v =>
  .ok (v.Set "lastseqno" s)

/-- The three mutually exclusive identity options, reified so quantifying
over "any of the three" is possible. -/
inductive CallsignOpt where
  | sender
  | receiver
  | generic
deriving DecidableEq

/-- The query parameter each identity option sets. -/
def CallsignOpt.key : CallsignOpt → String
  | .sender => "senderCallsign"
  | .receiver => "receiverCallsign"
  | .generic => "callsign"

/-- The source option each identity option denotes. -/
def CallsignOpt.option : CallsignOpt → String → QueryOption
  | .sender => WithSenderCallsign
  | .receiver => WithReceiverCallsign
  | .generic => WithCallsign

/-- `find?` skips everything a filter with an incompatible predicate kept. -/
theorem find?_filter_of_imp {α : Type} (p q : α → Bool) (l : List α)
    (h : ∀ x, p x = true → q x = true) :
    List.find? p (List.filter q l) = List.find? p l := by
  induction l with
  | nil => rfl
  | cons a l ih =>
    by_cases hq : q a = true
    · by_cases hp : p a = true
      · simp [hq, hp]
      · simp [hq, hp, ih]
    · have hp : ¬ p a = true := fun hpa => hq (h a hpa)
      simp [hq, hp, ih]

/-- Nothing surviving `filter (·.1 != k)` has key `k`. -/
theorem find?_filter_ne_eq_none (v : Values) (k : String) :
    List.find? (fun p => p.1 == k) (List.filter (fun p => p.1 != k) v) =
      none := by
  rw [List.find?_eq_none]
  intro x hx
  have hne := List.of_mem_filter hx
  simp only [bne_iff_ne, ne_eq] at hne
  simp [hne]

/-- The query options the package exports, reified with their arguments, so
that "option sequence" can be quantified over. -/
inductive Opt where
  | senderCallsign (s : String)
  | receiverCallsign (s : String)
  | callsign (s : String)
  | mode (s : String)
  | reportLimit (n : Int)
  | flowStartSeconds (n : Int)
  | noActive (n : Int)
  | appContact (email : String)
  | rrOnly (n : Int)
  | frequencyRange (lower upper : Int)
  | noLocator (n : Int)
  | statistics (n : Int)
  | lastSequenceNumber (s : String)
deriving DecidableEq

/-- Each reified option denotes the corresponding source option. -/
def Opt.apply : Opt → QueryOption
  | .senderCallsign s => WithSenderCallsign s
  | .receiverCallsign s => WithReceiverCallsign s
  | .callsign s => WithCallsign s
  | .mode s => WithMode s
  | .reportLimit n => WithReportLimit n
  | .flowStartSeconds n => WithFlowStartSeconds n
  | .noActive n => WithNoActive n
  | .appContact email => WithAppContact email
  | .rrOnly n => WithRROnly n
  | .frequencyRange lower upper => WithFrequencyRange lower upper
  | .noLocator n => WithNoLocator n
  | .statistics n => WithStatistics n
  | .lastSequenceNumber s => WithLastSequenceNumber s

/-- The option-application loop of `Client.Query`: apply options in order,
returning the first error. -/
def applyOpts : List Opt → Values → Except OptionError Values
  | [], v => .ok v
  | o :: rest, v =>
    match o.apply v with
    | .error e => .error e
    | .ok v' => applyOpts rest v'

/-- The errors `Client.Query` can return, one constructor per `return nil,
err` site (a failure of `io.ReadAll` is folded into `transport`). -/
inductive QueryError where
  | optionError (e : OptionError)
  | openingCachedFile
  | transport
  | unexpectedStatus (code : Nat)
  | decodeError
deriving DecidableEq

/-- The `Client` struct: the `doer` field is part of `FetchEnv` (it is an
abstract interface in the source as well), the duration is in nanoseconds
like Go's `time.Duration`. -/
structure Client where
  baseURL : String
  cacheDir : String
  cacheDuration : Int
deriving DecidableEq

/-- The external collaborators of one `Client.Query` call: the clock, the
filesystem (`os.Stat` modification time, `os.Open` contents or failure,
`os.Create` success), the HTTP transport (`Doer.Do`, delivering a status
code and a fully read body, or a transport error), and the XML decoder. -/
structure FetchEnv (R : Type) where
  now : Int
  stat : String → Option Int
  openFile : String → Option String
  doResult : Except Unit (Nat × String)
  decode : String → Option R

/-- Whether `os.Create` on the given path succeeds (cache writing). -/
structure WriteEnv where
  createOk : String → Bool

/-- What one `Client.Query` call returned and did: its result, how many
times `Doer.Do` ran, whether the cache was consulted, whether the network
response body was passed to the decoder, and which (path, bytes) cache
writes happened. -/
structure QueryOutcome (R : Type) where
  result : Except QueryError R
  networkCalls : Nat
  cacheChecked : Bool
  bodyDecoded : Bool
  writes : List (String × String)

/-- The cache file path `filepath.Join(c.cacheDir, hash(u.RawQuery))`. -/
def cacheFile (c : Client) (hash : String → String) (vals : Values) : String :=
  c.cacheDir ++ "/" ++ hash vals.Encode

/-- The cache-lookup block of `Client.Query` (lines guarded by
`c.cacheDir != ""`): `some` means the block returned (a fresh decodable
entry, or the error from a failed `os.Open` of a fresh entry); `none` means
control fell through to the network fetch. -/
def cacheCheck {R : Type} (c : Client) (file : String) (env : FetchEnv R) :
    Option (Except QueryError R) :=
  match env.stat file with
  | none => none
  | some modTime =>
    if modTime > env.now - c.cacheDuration then
      match env.openFile file with
      | none => some (.error .openingCachedFile)
      | some contents =>
        match env.decode contents with
        | some r => some (.ok r)
        | none => none
    else none

/-- The network portion of `Client.Query`: issue the GET, check the status,
read and decode the body, and best-effort write the raw body to the cache
when caching is enabled. -/
def networkPhase {R : Type} (c : Client) (file : String) (env : FetchEnv R)
    (wenv : WriteEnv) (cacheChecked : Bool) : QueryOutcome R :=
  match env.doResult with
  | .error _ => ⟨.error .transport, 1, cacheChecked, false, []⟩
  | .ok (status, body) =>
    if status ≠ 200 then
      ⟨.error (.unexpectedStatus status), 1, cacheChecked, false, []⟩
    else
      match env.decode body with
      | none => ⟨.error .decodeError, 1, cacheChecked, true, []⟩
      | some r =>
        if c.cacheDir ≠ "" then
          if wenv.createOk file then
            ⟨.ok r, 1, cacheChecked, true, [(file, body)]⟩
          else
            ⟨.ok r, 1, cacheChecked, true, []⟩
        else
          ⟨.ok r, 1, cacheChecked, true, []⟩

/-- `Client.Query`: apply the options (stopping at the first error), encode
the parameters, consult the cache when enabled, and otherwise run the
network phase. `initVals` stands for `url.Parse(c.baseURL).Query()` and
`hash` for the md5 hex digest. -/
def Client.Query {R : Type} (c : Client) (initVals : Values)
    (hash : String → String) (env : FetchEnv R) (wenv : WriteEnv)
    (opts : List Opt) : QueryOutcome R :=
  match applyOpts opts initVals with
  | .error e => ⟨.error (.optionError e), 0, false, false, []⟩
  | .ok vals =>
    let file := cacheFile c hash vals
    if c.cacheDir ≠ "" then
      match cacheCheck c file env with
      | some res => ⟨res, 0, true, false, []⟩
      | none => networkPhase c file env wenv true
    else
      networkPhase c file env wenv false

/-- The `clientOptions` struct consumed by `New`. -/
structure clientOptions where
  baseURL : String
  cacheDir : String
  cacheDuration : Int
deriving DecidableEq

/-- Go `ClientOption = func(*clientOptions) error` in state-passing form;
errors are the Go error strings. -/
def ClientOption : Type := clientOptions → Except String clientOptions

/-- `WithCacheDir` turns caching on. -/
def WithCacheDir (dir : String) : ClientOption := fun o =>
  .ok { o with cacheDir := dir }

/-- `WithCacheDuration` rejects negative durations. -/
def WithCacheDuration (dur : Int) : ClientOption := fun o =>
  if dur < 0 then .error "cache duration must be positive"
  else .ok { o with cacheDuration := dur }

/-- The option loop of `New`. -/
def applyClientOpts : List ClientOption → clientOptions →
    Except String clientOptions
  | [], o => .ok o
  | opt :: rest, o =>
    match opt o with
    | .error e => .error e
    | .ok o' => applyClientOpts rest o'

/-- The fixed query endpoint. -/
def queryURL : String := "https://retrieve.pskreporter.info/query"

/-- `New`: defaults (the default `doer` lives in `FetchEnv`), then the
option loop, then the `Client`. `280 * time.Second` is in nanoseconds. -/
def New (opts : List ClientOption) : Except String Client :=
  match applyClientOpts opts
      ⟨queryURL, "", 280 * 1000000000⟩ with
  | .error e => .error e
  | .ok o => .ok ⟨o.baseURL, o.cacheDir, o.cacheDuration⟩

/-- Basic lookup facts about `Values.Set`: reading back the key just set. -/
theorem Values.get?_Set_self (v : Values) (k s : String) :
    (v.Set k s).get? k = some s := by
  unfold Values.Set Values.get?
  rw [List.find?_append, find?_filter_ne_eq_none]
  simp

/-- `Values.Set` leaves every other key's binding unchanged. -/
theorem Values.get?_Set_ne (v : Values) (k s k' : String) (h : k' ≠ k) :
    (v.Set k s).get? k' = v.get? k' := by
  unfold Values.Set Values.get?
  rw [List.find?_append]
  have hb : (k == k') = false := beq_eq_false_iff_ne.mpr (Ne.symm h)
  have h2 : List.find? (fun p => p.1 == k') [(k, s)] = none := by
    simp [List.find?, hb]
  rw [h2, Option.or_none,
    find?_filter_of_imp (fun p => p.1 == k') (fun p => p.1 != k) v]
  intro x hx
  have : x.1 = k' := by simpa using hx
  simp [this, h]

/-- C1 helper: on a parameter set free of all three identity parameters,
each identity option succeeds and sets its own parameter. -/
theorem callsign_option_free_ok (i : CallsignOpt) (v : Values) (s : String)
    (hs : v.has "senderCallsign" = false)
    (hr : v.has "receiverCallsign" = false)
    (hc : v.has "callsign" = false) :
    i.option s v = .ok (v.Set i.key s) := by
  cases i <;>
    simp [CallsignOpt.option, CallsignOpt.key, WithSenderCallsign,
      WithReceiverCallsign, WithCallsign, hs, hr, hc]

/-- C1: the three identity options `{WithCallsign, WithSenderCallsign,
WithReceiverCallsign}` are mutually exclusive: once one of them has set its
parameter, applying a different one fails with `errCallsignExclusive`,
whatever the order; and applying exactly one of them to a parameter set
containing none of the three parameters always succeeds. -/
theorem callsign_options_mutually_exclusive
    (i j : CallsignOpt) (v : Values) (s t : String) :
    (i ≠ j → v.has i.key = true → j.option t v = .error .errCallsignExclusive) ∧
    (v.has "senderCallsign" = false → v.has "receiverCallsign" = false →
      v.has "callsign" = false → i.option s v = .ok (v.Set i.key s)) := by
  constructor
  · intro hij hkey
    cases i <;> cases j <;>
      simp_all [CallsignOpt.option, CallsignOpt.key, WithSenderCallsign,
        WithReceiverCallsign, WithCallsign]
  · intro hs hr hc
    exact callsign_option_free_ok i v s hs hr hc

/-- C1 witness: `WithSenderCallsign` then `WithReceiverCallsign` fails with
`errCallsignExclusive`, and `WithSenderCallsign` alone on an empty parameter
set succeeds. -/
theorem callsign_options_mutually_exclusive_witness :
    WithReceiverCallsign "B" [("senderCallsign", "A")] =
      .error .errCallsignExclusive ∧
    WithSenderCallsign "A" ([] : Values) =
      .ok ([("senderCallsign", "A")] : Values) :=
  ⟨(callsign_options_mutually_exclusive CallsignOpt.sender CallsignOpt.receiver
      [("senderCallsign", "A")] "A" "B").1 (by decide) (by decide),
   (callsign_options_mutually_exclusive CallsignOpt.sender CallsignOpt.receiver
      ([] : Values) "A" "B").2 (by decide) (by decide) (by decide)⟩

/-- C2: `WithFlowStartSeconds s` fails with `errFlowStartNotNegative` when
`s > 0`, fails with `errFlowStartGreaterDay` when `s < −86400`, and for
`−86400 ≤ s ≤ 0` succeeds, setting `flowStartSeconds` to the decimal string
of `s` and leaving every other parameter unchanged. -/
theorem withFlowStartSeconds_spec (s : Int) (v : Values) :
    (0 < s → WithFlowStartSeconds s v = .error .errFlowStartNotNegative) ∧
    (s < -86400 → WithFlowStartSeconds s v = .error .errFlowStartGreaterDay) ∧
    (-86400 ≤ s → s ≤ 0 →
      WithFlowStartSeconds s v = .ok (v.Set "flowStartSeconds" (toString s)) ∧
      (v.Set "flowStartSeconds" (toString s)).get? "flowStartSeconds" =
        some (toString s) ∧
      ∀ k, k ≠ "flowStartSeconds" →
        (v.Set "flowStartSeconds" (toString s)).get? k = v.get? k) := by
  refine ⟨fun h => ?_, fun h => ?_, fun h1 h2 => ⟨?_, ?_, ?_⟩⟩
  · simp [WithFlowStartSeconds, h]
  · have : ¬ s > 0 := by omega
    simp [WithFlowStartSeconds, this, h]
  · have h3 : ¬ s > 0 := by omega
    have h4 : ¬ s < -86400 := by omega
    simp [WithFlowStartSeconds, h3, h4]
  · exact Values.get?_Set_self v _ _
  · intro k hk
    exact Values.get?_Set_ne v _ _ k hk

/-- C2 witness: `WithFlowStartSeconds` at 1, −86401 and −1800 on the
parameter set `[("mode", "FT8")]`. -/
theorem withFlowStartSeconds_spec_witness :
    WithFlowStartSeconds 1 [("mode", "FT8")] =
      .error .errFlowStartNotNegative ∧
    WithFlowStartSeconds (-86401) [("mode", "FT8")] =
      .error .errFlowStartGreaterDay ∧
    WithFlowStartSeconds (-1800) [("mode", "FT8")] =
      .ok ([("mode", "FT8"), ("flowStartSeconds", "-1800")] : Values) ∧
    Values.get? [("mode", "FT8"), ("flowStartSeconds", "-1800")] "mode" =
      some "FT8" :=
  ⟨(withFlowStartSeconds_spec 1 [("mode", "FT8")]).1 (by decide),
   (withFlowStartSeconds_spec (-86401) [("mode", "FT8")]).2.1 (by decide),
   ((withFlowStartSeconds_spec (-1800) [("mode", "FT8")]).2.2
      (by decide) (by decide)).1,
   by
     have := ((withFlowStartSeconds_spec (-1800) [("mode", "FT8")]).2.2
       (by decide) (by decide)).2.2 "mode" (by decide)
     simpa using this⟩

/-- C3: `WithFrequencyRange lower upper` fails, with
`errLowerFrequencyGreaterThanUpper`, exactly when `lower > upper`; otherwise
it succeeds and sets `frange` to the string `"lower-upper"`. -/
theorem withFrequencyRange_spec (lower upper : Int) (v : Values) :
    ((∃ e, WithFrequencyRange lower upper v = .error e) ↔ upper < lower) ∧
    (upper < lower →
      WithFrequencyRange lower upper v =
        .error .errLowerFrequencyGreaterThanUpper) ∧
    (lower ≤ upper →
      WithFrequencyRange lower upper v =
        .ok (v.Set "frange" (toString lower ++ "-" ++ toString upper)) ∧
      (v.Set "frange" (toString lower ++ "-" ++ toString upper)).get? "frange" =
        some (toString lower ++ "-" ++ toString upper)) := by
  refine ⟨⟨fun ⟨e, he⟩ => ?_, fun h => ?_⟩, fun h => ?_, fun h => ⟨?_, ?_⟩⟩
  · by_contra hlt
    have h2 : ¬ lower > upper := by omega
    simp [WithFrequencyRange, h2] at he
  · exact ⟨OptionError.errLowerFrequencyGreaterThanUpper,
      by simp [WithFrequencyRange, h]⟩
  · simp [WithFrequencyRange, h]
  · have : ¬ lower > upper := by omega
    simp [WithFrequencyRange, this]
  · exact Values.get?_Set_self v _ _

/-- C3 witness: `WithFrequencyRange` at (14000000, 14100000) and at the
inverted pair (2, 1) on the empty parameter set. -/
theorem withFrequencyRange_spec_witness :
    WithFrequencyRange 2 1 ([] : Values) =
      .error .errLowerFrequencyGreaterThanUpper ∧
    WithFrequencyRange 14000000 14100000 ([] : Values) =
      .ok ([("frange", "14000000-14100000")] : Values) :=
  ⟨(withFrequencyRange_spec 2 1 ([] : Values)).2.1 (by decide),
   by
     have := ((withFrequencyRange_spec 14000000 14100000 ([] : Values)).2.2
       (by decide)).1
     simpa using this⟩

/-- Every branch of the network phase performs exactly one `Doer.Do` call. -/
theorem networkPhase_networkCalls {R : Type} (c : Client) (file : String)
    (env : FetchEnv R) (wenv : WriteEnv) (cc : Bool) :
    (networkPhase c file env wenv cc).networkCalls = 1 := by
  unfold networkPhase
  rcases env.doResult with e | ⟨status, body⟩
  · rfl
  · dsimp only
    by_cases h1 : status ≠ 200
    · rw [if_pos h1]
    · rw [if_neg h1]
      rcases env.decode body with _ | r
      · rfl
      · dsimp only
        by_cases h2 : c.cacheDir ≠ ""
        · rw [if_pos h2]
          by_cases h3 : wenv.createOk file = true
          · rw [if_pos h3]
          · rw [if_neg h3]
        · rw [if_neg h2]

/-- The result of the network phase does not depend on the cache side:
neither on the client's cache configuration, the cache path, the
`cacheChecked` flag, nor on whether the cache write will succeed. -/
theorem networkPhase_result {R : Type} (c c' : Client) (file file' : String)
    (env : FetchEnv R) (wenv wenv' : WriteEnv) (cc cc' : Bool) :
    (networkPhase c file env wenv cc).result =
      (networkPhase c' file' env wenv' cc').result := by
  unfold networkPhase
  rcases env.doResult with e | ⟨status, body⟩
  · rfl
  · dsimp only
    by_cases h1 : status ≠ 200
    · rw [if_pos h1, if_pos h1]
    · rw [if_neg h1, if_neg h1]
      rcases env.decode body with _ | r
      · rfl
      · dsimp only
        by_cases h2 : c.cacheDir ≠ "" <;>
          by_cases h2' : c'.cacheDir ≠ "" <;>
            by_cases h3 : wenv.createOk file = true <;>
              by_cases h3' : wenv'.createOk file' = true <;>
                simp [h2, h2', h3, h3']

/-- When option application succeeds and the cache block falls through (or
caching is disabled), `Client.Query` is the network phase. -/
theorem Query_eq_networkPhase {R : Type} (c : Client) (initVals : Values)
    (hash : String → String) (env : FetchEnv R) (wenv : WriteEnv)
    (opts : List Opt) (vals : Values)
    (hopts : applyOpts opts initVals = .ok vals)
    (hmiss : c.cacheDir ≠ "" → cacheCheck c (cacheFile c hash vals) env = none) :
    c.Query initVals hash env wenv opts =
      networkPhase c (cacheFile c hash vals) env wenv (c.cacheDir != "") := by
  by_cases hc : c.cacheDir = ""
  · simp [Client.Query, hopts, hc]
  · have hb : (c.cacheDir != "") = true := by simpa using hc
    simp [Client.Query, hopts, hc, hmiss hc, hb]

/-- C4: with caching enabled, a fresh cache entry (age strictly below the
configured duration) whose bytes decode is returned as the result with no
network call; an entry whose age has reached the duration leads to exactly
one network call. -/
theorem query_cache_fresh_hit_and_expiry {R : Type} (c : Client)
    (initVals : Values) (hash : String → String) (env : FetchEnv R)
    (wenv : WriteEnv) (opts : List Opt) (vals : Values) (mt : Int)
    (hc : c.cacheDir ≠ "")
    (hopts : applyOpts opts initVals = .ok vals)
    (hstat : env.stat (cacheFile c hash vals) = some mt) :
    (∀ contents r, env.now - mt < c.cacheDuration →
      env.openFile (cacheFile c hash vals) = some contents →
      env.decode contents = some r →
      c.Query initVals hash env wenv opts = ⟨.ok r, 0, true, false, []⟩) ∧
    (c.cacheDuration ≤ env.now - mt →
      (c.Query initVals hash env wenv opts).networkCalls = 1) := by
  constructor
  · intro contents r hfresh hopen hdec
    have hgt : mt > env.now - c.cacheDuration := by omega
    simp [Client.Query, hopts, hc, cacheCheck, hstat, hgt, hopen, hdec]
  · intro hstale
    have hgt : ¬ mt > env.now - c.cacheDuration := by omega
    have hmiss : c.cacheDir ≠ "" →
        cacheCheck c (cacheFile c hash vals) env = none := by
      intro _
      simp [cacheCheck, hstat, hgt]
    rw [Query_eq_networkPhase c initVals hash env wenv opts vals hopts hmiss]
    exact networkPhase_networkCalls c _ env wenv _

/-- C5: a non-200 status yields the `unexpectedStatus` error carrying the
code; the body is never decoded, nothing is written to the cache, and the
one network call is the only effect. -/
theorem query_non_ok_status {R : Type} (c : Client) (initVals : Values)
    (hash : String → String) (env : FetchEnv R) (wenv : WriteEnv)
    (opts : List Opt) (vals : Values) (code : Nat) (body : String)
    (hopts : applyOpts opts initVals = .ok vals)
    (hmiss : c.cacheDir ≠ "" → cacheCheck c (cacheFile c hash vals) env = none)
    (hdo : env.doResult = .ok (code, body))
    (hcode : code ≠ 200) :
    (c.Query initVals hash env wenv opts).result =
      .error (.unexpectedStatus code) ∧
    (c.Query initVals hash env wenv opts).bodyDecoded = false ∧
    (c.Query initVals hash env wenv opts).writes = [] ∧
    (c.Query initVals hash env wenv opts).networkCalls = 1 := by
  rw [Query_eq_networkPhase c initVals hash env wenv opts vals hopts hmiss]
  simp [networkPhase, hdo, hcode]

/-- C6 counterexample: a fresh cache entry that fails to open makes
`Client.Query` return the `opening cached file` error even though the same
call with caching disabled succeeds, so an open failure on a fresh entry is
a cache fault that IS surfaced as an error. -/
theorem cache_open_failure_surfaces_error :
    (Client.Query ⟨"u", "d", 280⟩ ([] : Values) (fun _ => "h")
        ⟨100, fun _ => some 99, fun _ => none, .ok (200, "xml"),
          fun s => if s = "xml" then some 7 else none⟩
        ⟨fun _ => true⟩ []).result = .error .openingCachedFile ∧
    (Client.Query ⟨"u", "", 280⟩ ([] : Values) (fun _ => "h")
        ⟨100, fun _ => some 99, fun _ => none, .ok (200, "xml"),
          fun s => if s = "xml" then some 7 else none⟩
        ⟨fun _ => true⟩ []).result = .ok 7 := by
  constructor
  · simp [Client.Query, applyOpts, cacheCheck]
  · simp [Client.Query, applyOpts, networkPhase]

/-- C6 (amended): the other cache faults — a missing entry, a stale entry,
a fresh entry whose bytes fail to decode, and a cache-write failure — are
never surfaced: whenever the cache block falls through, the call's result
(and its single network call) is exactly that of the same client with
caching disabled. -/
theorem cache_miss_faults_not_surfaced {R : Type} (c : Client)
    (initVals : Values) (hash : String → String) (env : FetchEnv R)
    (wenv : WriteEnv) (opts : List Opt) (vals : Values)
    (hopts : applyOpts opts initVals = .ok vals)
    (hmiss : cacheCheck c (cacheFile c hash vals) env = none) :
    (c.Query initVals hash env wenv opts).result =
      ({ c with cacheDir := "" }.Query initVals hash env wenv opts).result ∧
    (c.Query initVals hash env wenv opts).networkCalls =
      ({ c with cacheDir := "" }.Query initVals hash env wenv opts).networkCalls := by
  have hdis : ({ c with cacheDir := "" } : Client).cacheDir ≠ "" →
      cacheCheck { c with cacheDir := "" }
        (cacheFile { c with cacheDir := "" } hash vals) env = none := by
    intro h
    exact absurd rfl h
  rw [Query_eq_networkPhase c initVals hash env wenv opts vals hopts
      (fun _ => hmiss),
    Query_eq_networkPhase { c with cacheDir := "" } initVals hash env wenv
      opts vals hopts hdis]
  exact ⟨networkPhase_result _ _ _ _ env wenv wenv _ _, by
    rw [networkPhase_networkCalls, networkPhase_networkCalls]⟩

/-- C7: with caching enabled, after a successful fetch and decode the raw
body bytes are written to `cacheDir/hash(encodedQuery)` when the file can
be created; when it cannot, nothing is written, and in both cases the
decoded result is returned. -/
theorem query_writes_cache_on_success {R : Type} (c : Client)
    (initVals : Values) (hash : String → String) (env : FetchEnv R)
    (wenv : WriteEnv) (opts : List Opt) (vals : Values) (body : String)
    (r : R)
    (hc : c.cacheDir ≠ "")
    (hopts : applyOpts opts initVals = .ok vals)
    (hmiss : cacheCheck c (cacheFile c hash vals) env = none)
    (hdo : env.doResult = .ok (200, body))
    (hdec : env.decode body = some r) :
    c.Query initVals hash env wenv opts =
      ⟨.ok r, 1, true, true,
        if wenv.createOk (cacheFile c hash vals) then
          [(cacheFile c hash vals, body)]
        else []⟩ := by
  rw [Query_eq_networkPhase c initVals hash env wenv opts vals hopts
      (fun _ => hmiss)]
  have hcc : (c.cacheDir != "") = true := by
    simpa using hc
  rw [hcc]
  by_cases hw : wenv.createOk (cacheFile c hash vals) = true
  · simp [networkPhase, hdo, hdec, hc, hw]
  · simp [networkPhase, hdo, hdec, hc, hw]

/-- `applyOpts` distributes over append, stopping at the first error. -/
theorem applyOpts_append (l₁ l₂ : List Opt) (v : Values) :
    applyOpts (l₁ ++ l₂) v =
      match applyOpts l₁ v with
      | .error e => .error e
      | .ok v' => applyOpts l₂ v' := by
  induction l₁ generalizing v with
  | nil => rfl
  | cons o rest ih =>
    simp only [List.cons_append, applyOpts]
    cases o.apply v with
    | error e => rfl
    | ok v' => exact ih v'

/-- C9: if some option in the sequence fails, `Client.Query` returns that
option's validation error no matter what options follow it: nothing after
the first failure is applied, no network call happens, the cache is neither
read nor written, and no result is produced. -/
theorem query_stops_at_first_failing_option {R : Type} (c : Client)
    (initVals : Values) (hash : String → String) (env : FetchEnv R)
    (wenv : WriteEnv) (pre post : List Opt) (o : Opt) (v : Values)
    (e : OptionError)
    (hpre : applyOpts pre initVals = .ok v)
    (ho : o.apply v = .error e) :
    c.Query initVals hash env wenv (pre ++ o :: post) =
      ⟨.error (.optionError e), 0, false, false, []⟩ := by
  have h : applyOpts (pre ++ o :: post) initVals = .error e := by
    rw [applyOpts_append, hpre]
    simp [applyOpts, ho]
  simp [Client.Query, h]

/-- C10: `New(WithCacheDuration(d))` fails with "cache duration must be
positive" exactly for negative `d`; for `d = 0` and every positive `d` it
succeeds and the client's cache duration is `d` (so zero is accepted
despite the message demanding a positive duration). -/
theorem new_withCacheDuration_spec (d : Int) :
    (d < 0 →
      New [WithCacheDuration d] = .error "cache duration must be positive") ∧
    (0 ≤ d → New [WithCacheDuration d] = .ok ⟨queryURL, "", d⟩) := by
  constructor
  · intro h
    simp [New, applyClientOpts, WithCacheDuration, h]
  · intro h
    have h2 : ¬ d < 0 := by omega
    simp [New, applyClientOpts, WithCacheDuration, h2]

/-- The invariant `url.Values` enjoys by being a Go map: each parameter
name is bound at most once. -/
def keysNodup (v : Values) : Prop := (List.map Prod.fst v).Nodup

/-- `Values.Set` preserves duplicate-freedom of the keys. -/
theorem keysNodup_Set (v : Values) (k s : String) (h : keysNodup v) :
    keysNodup (v.Set k s) := by
  unfold keysNodup Values.Set at *
  rw [List.map_append]
  have hsub : (List.map Prod.fst (List.filter (fun p => p.1 != k) v)).Sublist
      (List.map Prod.fst v) := (List.filter_sublist v).map Prod.fst
  refine List.Nodup.append (hsub.nodup h) (List.nodup_singleton k) ?_
  intro a ha hb
  have hak : a = k := by simpa using hb
  subst hak
  obtain ⟨p, hp, hpa⟩ := List.mem_map.mp ha
  have hne := List.of_mem_filter hp
  simp only [bne_iff_ne, ne_eq] at hne
  exact hne hpa

/-- Every option that succeeds rewrites the parameter set by a single
`Values.Set`. -/
theorem Opt.apply_ok_eq_Set (o : Opt) (v v' : Values)
    (h : o.apply v = .ok v') : ∃ k s, v' = v.Set k s := by
  cases o <;>
    (simp only [Opt.apply, WithSenderCallsign, WithReceiverCallsign,
      WithCallsign, WithMode, WithReportLimit, WithFlowStartSeconds,
      WithNoActive, WithAppContact, WithRROnly, WithFrequencyRange,
      WithNoLocator, WithStatistics, WithLastSequenceNumber] at h) <;>
    (try split_ifs at h) <;>
    first
      | exact Except.noConfusion h
      | · injection h with h2
          exact ⟨_, _, h2.symm⟩

/-- The option loop preserves the duplicate-free-keys invariant. -/
theorem applyOpts_keysNodup (opts : List Opt) (v v' : Values)
    (hn : keysNodup v) (h : applyOpts opts v = .ok v') : keysNodup v' := by
  induction opts generalizing v with
  | nil =>
    simp only [applyOpts] at h
    injection h with h2
    exact h2 ▸ hn
  | cons o rest ih =>
    simp only [applyOpts] at h
    cases ho : o.apply v with
    | error e =>
      rw [ho] at h
      exact Except.noConfusion h
    | ok v₁ =>
      rw [ho] at h
      obtain ⟨k, s, rfl⟩ := Opt.apply_ok_eq_Set o v v₁ ho
      exact ih _ (keysNodup_Set v k s hn) h

/-- A name appears in the key list exactly when it is bound. -/
theorem mem_keys_iff_get? (v : Values) (k : String) :
    k ∈ List.map Prod.fst v ↔ (v.get? k).isSome := by
  unfold Values.get?
  induction v with
  | nil => simp
  | cons p rest ih =>
    by_cases h : p.1 = k
    · simp [List.find?, h]
    · have hb : (p.1 == k) = false := beq_eq_false_iff_ne.mpr h
      rw [List.map_cons, List.mem_cons]
      simp only [List.find?, hb]
      constructor
      · rintro (h1 | h1)
        · exact absurd h1.symm h
        · exact ih.mp h1
      · intro hs
        exact Or.inr (ih.mpr hs)

/-- Two duplicate-free parameter sets with the same name-to-value lookup
encode to the same query string. -/
theorem Encode_eq_of_get?_eq (v₁ v₂ : Values)
    (h₁ : keysNodup v₁) (h₂ : keysNodup v₂)
    (hsame : ∀ k, v₁.get? k = v₂.get? k) :
    v₁.Encode = v₂.Encode := by
  have hperm : (List.map Prod.fst v₁).Perm (List.map Prod.fst v₂) := by
    rw [List.perm_ext_iff_of_nodup h₁ h₂]
    intro k
    rw [mem_keys_iff_get?, mem_keys_iff_get?, hsame k]
  haveI hto : IsTotal String (fun a b : String => a ≤ b) := ⟨le_total⟩
  haveI htr : IsTrans String (fun a b : String => a ≤ b) :=
    ⟨fun a b c => le_trans⟩
  haveI hat : IsAntisymm String (fun a b : String => a ≤ b) :=
    ⟨fun a b => le_antisymm⟩
  have hs : List.insertionSort (fun a b : String => a ≤ b)
        (List.map Prod.fst v₁) =
      List.insertionSort (fun a b : String => a ≤ b)
        (List.map Prod.fst v₂) :=
    @List.eq_of_perm_of_sorted String (fun a b : String => a ≤ b) hat _ _
      (((List.perm_insertionSort _ _).trans hperm).trans
        (List.perm_insertionSort _ _).symm)
      (List.sorted_insertionSort _ _) (List.sorted_insertionSort _ _)
  have hf : (fun k => queryEscape k ++ "=" ++
        queryEscape (Option.getD (v₁.get? k) "")) =
      (fun k => queryEscape k ++ "=" ++
        queryEscape (Option.getD (v₂.get? k) "")) := by
    funext k
    rw [hsame k]
  unfold Values.Encode
  rw [hs, hf]

/-- C8: any two option sequences that apply without error and leave the
same final parameter-name-to-value mapping produce the identical encoded
query string, hence the identical cache key, whatever the application
order was. -/
theorem encode_deterministic_of_same_params (init v₁ v₂ : Values)
    (opts₁ opts₂ : List Opt) (hash : String → String)
    (hn : keysNodup init)
    (h₁ : applyOpts opts₁ init = .ok v₁)
    (h₂ : applyOpts opts₂ init = .ok v₂)
    (hsame : ∀ k, v₁.get? k = v₂.get? k) :
    v₁.Encode = v₂.Encode ∧ hash v₁.Encode = hash v₂.Encode := by
  have he := Encode_eq_of_get?_eq v₁ v₂
    (applyOpts_keysNodup opts₁ init v₁ hn h₁)
    (applyOpts_keysNodup opts₂ init v₂ hn h₂) hsame
  exact ⟨he, congrArg hash he⟩

/-- C4 witness: a client with cache duration 100 at time 50; a hit written
at time 10 (age 40) is served without a network call, one written at time
−60 (age 110) triggers exactly one network call. -/
theorem query_cache_fresh_hit_and_expiry_witness :
    Client.Query ⟨"u", "d", 100⟩ ([] : Values) (fun _ => "h")
        ⟨50, fun _ => some 10, fun _ => some "xml", .ok (200, "xml"),
          fun s => if s = "xml" then some 3 else none⟩
        ⟨fun _ => true⟩ [] =
      ⟨.ok 3, 0, true, false, []⟩ ∧
    (Client.Query ⟨"u", "d", 100⟩ ([] : Values) (fun _ => "h")
        ⟨50, fun _ => some (-60), fun _ => some "xml", .ok (200, "xml"),
          fun s => if s = "xml" then some 3 else none⟩
        ⟨fun _ => true⟩ []).networkCalls = 1 :=
  ⟨(query_cache_fresh_hit_and_expiry ⟨"u", "d", 100⟩ ([] : Values)
      (fun _ => "h")
      ⟨50, fun _ => some 10, fun _ => some "xml", .ok (200, "xml"),
        fun s => if s = "xml" then some 3 else none⟩
      ⟨fun _ => true⟩ [] ([] : Values) 10 (by decide) rfl rfl).1
      "xml" 3 (by decide) rfl (by simp),
   (query_cache_fresh_hit_and_expiry ⟨"u", "d", 100⟩ ([] : Values)
      (fun _ => "h")
      ⟨50, fun _ => some (-60), fun _ => some "xml", .ok (200, "xml"),
        fun s => if s = "xml" then some 3 else none⟩
      ⟨fun _ => true⟩ [] ([] : Values) (-60) (by decide) rfl rfl).2
      (by decide)⟩

/-- C5 witness: a 500 response yields the carried status error, an
undecoded body, an empty write list and one network call. -/
theorem query_non_ok_status_witness :
    (Client.Query ⟨"u", "", 0⟩ ([] : Values) (fun _ => "h")
        ⟨0, fun _ => none, fun _ => none, .ok (500, "b"),
          fun _ => (none : Option Nat)⟩
        ⟨fun _ => true⟩ []).result = .error (.unexpectedStatus 500) ∧
    (Client.Query ⟨"u", "", 0⟩ ([] : Values) (fun _ => "h")
        ⟨0, fun _ => none, fun _ => none, .ok (500, "b"),
          fun _ => (none : Option Nat)⟩
        ⟨fun _ => true⟩ []).bodyDecoded = false ∧
    (Client.Query ⟨"u", "", 0⟩ ([] : Values) (fun _ => "h")
        ⟨0, fun _ => none, fun _ => none, .ok (500, "b"),
          fun _ => (none : Option Nat)⟩
        ⟨fun _ => true⟩ []).writes = [] ∧
    (Client.Query ⟨"u", "", 0⟩ ([] : Values) (fun _ => "h")
        ⟨0, fun _ => none, fun _ => none, .ok (500, "b"),
          fun _ => (none : Option Nat)⟩
        ⟨fun _ => true⟩ []).networkCalls = 1 :=
  query_non_ok_status ⟨"u", "", 0⟩ ([] : Values) (fun _ => "h")
    ⟨0, fun _ => none, fun _ => none, .ok (500, "b"),
      fun _ => (none : Option Nat)⟩
    ⟨fun _ => true⟩ [] ([] : Values) 500 "b" rfl
    (fun hcc => absurd rfl hcc) rfl (by decide)

/-- C6 witness (amended claim): with a missing cache entry the enabled and
disabled clients agree on result and on the single network call. -/
theorem cache_miss_faults_not_surfaced_witness :
    (Client.Query ⟨"u", "d", 100⟩ ([] : Values) (fun _ => "h")
        ⟨50, fun _ => none, fun _ => none, .ok (200, "xml"),
          fun s => if s = "xml" then some 3 else none⟩
        ⟨fun _ => true⟩ []).result =
      (Client.Query ⟨"u", "", 100⟩ ([] : Values) (fun _ => "h")
        ⟨50, fun _ => none, fun _ => none, .ok (200, "xml"),
          fun s => if s = "xml" then some 3 else none⟩
        ⟨fun _ => true⟩ []).result ∧
    (Client.Query ⟨"u", "d", 100⟩ ([] : Values) (fun _ => "h")
        ⟨50, fun _ => none, fun _ => none, .ok (200, "xml"),
          fun s => if s = "xml" then some 3 else none⟩
        ⟨fun _ => true⟩ []).networkCalls =
      (Client.Query ⟨"u", "", 100⟩ ([] : Values) (fun _ => "h")
        ⟨50, fun _ => none, fun _ => none, .ok (200, "xml"),
          fun s => if s = "xml" then some 3 else none⟩
        ⟨fun _ => true⟩ []).networkCalls :=
  cache_miss_faults_not_surfaced ⟨"u", "d", 100⟩ ([] : Values) (fun _ => "h")
    ⟨50, fun _ => none, fun _ => none, .ok (200, "xml"),
      fun s => if s = "xml" then some 3 else none⟩
    ⟨fun _ => true⟩ [] ([] : Values) rfl rfl

/-- C7 witness: on a cache miss, a 200 response whose body decodes is both
returned and written under `cacheDir/hash(encodedQuery)`. -/
theorem query_writes_cache_on_success_witness :
    Client.Query ⟨"u", "d", 100⟩ ([] : Values) (fun _ => "h")
        ⟨50, fun _ => none, fun _ => none, .ok (200, "xml"),
          fun s => if s = "xml" then some 3 else none⟩
        ⟨fun _ => true⟩ [] =
      ⟨.ok 3, 1, true, true, [("d/h", "xml")]⟩ := by
  have h := query_writes_cache_on_success ⟨"u", "d", 100⟩ ([] : Values)
    (fun _ => "h")
    ⟨50, fun _ => none, fun _ => none, .ok (200, "xml"),
      fun s => if s = "xml" then some 3 else none⟩
    ⟨fun _ => true⟩ [] ([] : Values) "xml" 3 (by decide) rfl rfl rfl (by simp)
  simpa using h

/-- C8 witness: setting `mode` then `noactive` and setting them in the
opposite order encode identically. -/
theorem encode_deterministic_of_same_params_witness :
    Values.Encode [("mode", "FT8"), ("noactive", "1")] =
      Values.Encode [("noactive", "1"), ("mode", "FT8")] := by
  refine (encode_deterministic_of_same_params ([] : Values)
    [("mode", "FT8"), ("noactive", "1")]
    [("noactive", "1"), ("mode", "FT8")]
    [Opt.mode "FT8", Opt.noActive 1] [Opt.noActive 1, Opt.mode "FT8"]
    (fun s => s) (by simp [keysNodup]) rfl rfl ?_).1
  intro k
  by_cases h1 : "mode" = k
  · subst h1
    decide
  · by_cases h2 : "noactive" = k
    · subst h2
      decide
    · have b1 : ("mode" == k) = false := beq_eq_false_iff_ne.mpr h1
      have b2 : ("noactive" == k) = false := beq_eq_false_iff_ne.mpr h2
      simp [Values.get?, List.find?, b1, b2]

/-- C9 witness: `[WithMode, WithFlowStartSeconds 5, WithNoActive]` stops at
the failing second option with its error and performs no I/O. -/
theorem query_stops_at_first_failing_option_witness :
    Client.Query ⟨"u", "d", 100⟩ ([] : Values) (fun _ => "h")
        ⟨50, fun _ => some 10, fun _ => some "xml", .ok (200, "xml"),
          fun s => if s = "xml" then some (3 : Nat) else none⟩
        ⟨fun _ => true⟩
        [Opt.mode "FT8", Opt.flowStartSeconds 5, Opt.noActive 1] =
      ⟨.error (.optionError .errFlowStartNotNegative), 0, false, false, []⟩ :=
  query_stops_at_first_failing_option ⟨"u", "d", 100⟩ ([] : Values)
    (fun _ => "h")
    ⟨50, fun _ => some 10, fun _ => some "xml", .ok (200, "xml"),
      fun s => if s = "xml" then some (3 : Nat) else none⟩
    ⟨fun _ => true⟩ [Opt.mode "FT8"] [Opt.noActive 1]
    (Opt.flowStartSeconds 5) [("mode", "FT8")] .errFlowStartNotNegative
    rfl rfl

/-- C10 witness: `New(WithCacheDuration(-1))` fails with the message, and
`New(WithCacheDuration(0))` succeeds with cache duration 0. -/
theorem new_withCacheDuration_spec_witness :
    New [WithCacheDuration (-1)] =
      .error "cache duration must be positive" ∧
    New [WithCacheDuration 0] = .ok ⟨queryURL, "", 0⟩ :=
  ⟨(new_withCacheDuration_spec (-1)).1 (by decide),
   (new_withCacheDuration_spec 0).2 (by decide)⟩

end Pskreporter
